import Mathlib

/-!
Shallow embedding of the scoring / aggregation / risk-override core of the
Crypto-Analyst agent swarm (src/agents/base_agent.py,
src/scripts/aggregate_votes.py, src/scripts/risk_engine.py).

Numbers are modelled as rationals (ℚ); Python dicts are modelled as
insertion-ordered association lists `List (String × α)`; keys that may be
absent from a dict become `Option` fields.
-/

namespace Crypto

/-- Association-list lookup, modelling Python `d[k]` / `k in d` on a dict
rendered as an insertion-ordered list of key-value pairs. -/
def alookup {α : Type} : List (String × α) → String → Option α
  | [], _ => none
  | (k, v) :: rest, key => if k = key then some v else alookup rest key

/-- Indicator record: models an indicator JSON dict.  Only the keys the
embedded functions read (`value`, `signal`) are represented; each is optional
because the dict may lack it. -/
structure Indicator where
  value? : Option ℚ
  signal? : Option String
  deriving DecidableEq

/-- Weighted-signal entry built by `BaseAgent.weight_signals`
(src/agents/base_agent.py lines 82-88). -/
structure WeightedSignal where
  raw_value : ℚ
  signal : String
  base_score : ℚ
  weight : ℚ
  weighted_score : ℚ
  deriving DecidableEq

/-- Body of the per-indicator loop of `BaseAgent.weight_signals`
(src/agents/base_agent.py lines 67-88): signal string to base score
(bullish 75, bearish 25, anything else 50), weighted score = base × weight;
`raw_value` and `signal` use the dict defaults 50 and `"neutral"`. -/
def mkWeightedSignal (ind : Indicator) (w : ℚ) : WeightedSignal :=
  let signal := ind.signal?.getD "neutral"
  let raw := ind.value?.getD 50
  let base : ℚ := if signal = "bullish" then 75 else if signal = "bearish" then 25 else 50
  ⟨raw, signal, base, w, base * w⟩

/-- Embedding of `BaseAgent.weight_signals` (src/agents/base_agent.py lines
50-93).  The Python method mutates `self.weights` when the voter declared no
weights and indicators are available (line 62); the state change is made
explicit by returning the pair (stored weights after the call, weighted
scores).  Weights naming an indicator absent from `indicators` are skipped
(the `else` branch at line 89 only logs a warning). -/
def weight_signals (weights : List (String × ℚ)) (indicators : List (String × Indicator)) :
    List (String × ℚ) × List (String × WeightedSignal) :=
  let ws := if weights = [] ∧ indicators ≠ [] then
      indicators.map (fun p => (p.1, (1 : ℚ) / indicators.length))
    else weights
  (ws, ws.filterMap fun p => (alookup indicators p.1).map fun ind => (p.1, mkWeightedSignal ind p.2))

/-- Sum of the `weight` fields, as in src/agents/base_agent.py line 109. -/
def total_weight (ws : List (String × WeightedSignal)) : ℚ :=
  (ws.map fun p => p.2.weight).sum

/-- Sum of the `weighted_score` fields, as in src/agents/base_agent.py line 115. -/
def weighted_sum (ws : List (String × WeightedSignal)) : ℚ :=
  (ws.map fun p => p.2.weighted_score).sum

/-- Embedding of `BaseAgent.calculate_composite_score`
(src/agents/base_agent.py lines 95-122): empty mapping → 50, zero total
weight → 50, otherwise the weight-normalised mean clamped into [0, 100]. -/
def calculate_composite_score (ws : List (String × WeightedSignal)) : ℚ :=
  if ws = [] then 50
  else if total_weight ws = 0 then 50
  else max 0 (min 100 (weighted_sum ws / total_weight ws))

/-- Embedding of `BaseAgent.determine_action`
(src/agents/base_agent.py lines 124-143). -/
def determine_action (score : ℚ) : String :=
  if 75 ≤ score then "STRONG_BUY"
  else if 60 ≤ score then "BUY"
  else if score ≤ 25 then "STRONG_SELL"
  else if score ≤ 40 then "SELL"
  else "HOLD"

/-! ### aggregate_votes.py -/

/-- Agent output ("vote") record as consumed by the aggregator: a JSON dict
read through `.get` with defaults, so every key is optional. -/
structure Vote where
  score? : Option ℚ
  action? : Option String
  deriving DecidableEq

/-- Embedding of `calculate_consensus_pct`
(src/scripts/aggregate_votes.py lines 106-124): empty input returns the
neutral default 50.0 (line 118), otherwise the arithmetic mean of the
per-vote scores (each defaulting to 50 via `.get('score', 50)`). -/
def calculate_consensus_pct (agent_outputs : List Vote) : ℚ :=
  if agent_outputs = [] then 50
  else ((agent_outputs.map fun v => v.score?.getD 50).sum) / agent_outputs.length

/-- One row of the `consensus_to_action` table: a YAML dict whose `min`,
`max`, `action` and `emoji` keys may each be absent. -/
structure ActionBand where
  min? : Option ℚ
  max? : Option ℚ
  action? : Option String
  emoji? : Option String
  deriving DecidableEq

/-- Default emoji used by `mapping.get('emoji', ...)` in
src/scripts/aggregate_votes.py (the source file stores the three emoji as
mojibake byte sequences; the escapes below reproduce those exact
characters). -/
def defaultEmoji : String := "游리"

/-- Action/emoji pair returned for a matched band
(src/scripts/aggregate_votes.py lines 143-146): `action` defaults to
`hold`, `emoji` to the default emoji. -/
def bandResult (b : ActionBand) : String × String :=
  (b.action?.getD "hold", b.emoji?.getD defaultEmoji)

/-- Test `'max' in mapping and consensus_pct < mapping['max']`
(src/scripts/aggregate_votes.py line 142). -/
def belowMax (b : ActionBand) (pct : ℚ) : Bool :=
  match b.max? with
  | none => false
  | some mx => pct < mx

/-- Test `'min' in mapping and consensus_pct >= mapping['min']`
(src/scripts/aggregate_votes.py lines 148 and 155). -/
def atLeastMin (b : ActionBand) (pct : ℚ) : Bool :=
  match b.min? with
  | none => false
  | some mn => mn ≤ pct

/-- Embedding of `map_consensus_to_action`
(src/scripts/aggregate_votes.py lines 127-163), branch for branch: the first
`if` fires whenever `max` is present and the value is below it, with no test
that `min` is absent; the second branch (both bounds) and third branch
(only `min`) follow; an exhausted table falls back to hold. -/
def map_consensus_to_action (pct : ℚ) : List ActionBand → String × String
  | [] => ("hold", defaultEmoji)
  | b :: rest =>
    if belowMax b pct then bandResult b
    else if atLeastMin b pct && belowMax b pct then bandResult b
    else if atLeastMin b pct && b.max?.isNone then bandResult b
    else map_consensus_to_action pct rest

/-- Default `consensus_to_action` table built by `load_config` when the YAML
file is unavailable (src/scripts/aggregate_votes.py lines 62-68). -/
def defaultActionTable : List ActionBand :=
  [⟨none, some 40, some "de-risk", some "游댮"⟩,
   ⟨some 40, some 60, some "hold", some "游리"⟩,
   ⟨some 60, none, some "buy", some "游릭"⟩]

/-- Result of `analyze_agent_distribution`: the `majority_action` key is
absent from the dict in the ≤ 1-voter branch, hence an `Option`. -/
structure DistResult where
  distribution : List (String × Nat)
  agreement_level : ℚ
  majority_action? : Option String
  deriving DecidableEq

/-- One step of the counting loop `action_counts[action] =
action_counts.get(action, 0) + 1` (src/scripts/aggregate_votes.py line 183)
on an insertion-ordered dict. -/
def bumpCount : List (String × Nat) → String → List (String × Nat)
  | [], a => [(a, 1)]
  | (k, n) :: rest, a =>
    if k = a then (k, n + 1) :: rest else (k, n) :: bumpCount rest a

/-- The action string of a vote, with the dict default
`output.get('action', 'HOLD')` (src/scripts/aggregate_votes.py line 182). -/
def voteAction (v : Vote) : String := v.action?.getD "HOLD"

/-- The counting loop of `analyze_agent_distribution`
(src/scripts/aggregate_votes.py lines 180-183). -/
def countActions (outs : List Vote) : List (String × Nat) :=
  outs.foldl (fun acc v => bumpCount acc (voteAction v)) []

/-- Python `max(action_counts.values())` over a non-empty dict, 0 on an
empty one (src/scripts/aggregate_votes.py line 186). -/
def maxCountVal : List (String × Nat) → Nat
  | [] => 0
  | x :: xs => xs.foldl (fun m y => Nat.max m y.2) x.2

/-- Python `max(action_counts.items(), key=lambda x: x[1])[0]`: linear scan
keeping the first item, replacing it only on a strictly larger count
(src/scripts/aggregate_votes.py line 192). -/
def maxByCount : List (String × Nat) → Option String
  | [] => none
  | x :: xs => some (xs.foldl (fun best y => if best.2 < y.2 then y else best) x).1

/-- Embedding of `analyze_agent_distribution`
(src/scripts/aggregate_votes.py lines 166-193).  With at most one voter it
returns the literal `{'distribution': {}, 'agreement_level': 1.0}` dict
(line 177), which has no `majority_action` key and an empty distribution. -/
def analyze_agent_distribution (outs : List Vote) : DistResult :=
  if outs.length ≤ 1 then ⟨[], 1, none⟩
  else
    let counts := countActions outs
    let mx := maxCountVal counts
    ⟨counts,
     if 0 < outs.length then (mx : ℚ) / outs.length else 1,
     some ((maxByCount counts).getD "HOLD")⟩

/-! ### risk_engine.py -/

/-- Two-decimal rendering of a rational, modelling the Python f-string
format `{v:.2f}` used in the risk-flag descriptions (rounding to the nearest
hundredth, half away from zero; the exact decimal string plays no role in
any verified property, only its functional determinism does). -/
def fmt2 (v : ℚ) : String :=
  let sign := if v < 0 then "-" else ""
  let cents : ℤ := ⌊|v| * 100 + 1 / 2⌋
  let ip := cents / 100
  let fp := cents % 100
  sign ++ toString ip ++ "." ++ (if fp < 10 then "0" ++ toString fp else toString fp)

/-- Plain rendering of a rational, modelling the Python f-string format
`{v}` used in the Rainbow-band description (again only determinism
matters). -/
def fmtPlain (v : ℚ) : String :=
  if v.den = 1 then toString v.num else toString v.num ++ "/" ++ toString v.den

/-- Risk flag record as built by the three check functions in
src/scripts/risk_engine.py. -/
structure RiskFlag where
  flag : String
  value : ℚ
  threshold : ℚ
  name : String
  description : String
  emoji : String
  deriving DecidableEq

/-- Embedding of `check_cbbi_risk` (src/scripts/risk_engine.py lines
140-166): missing `value` key → no flag; value ≥ 0.8 → the `cbbi_high`
flag; otherwise no flag. -/
def check_cbbi_risk (indicator : Indicator) : Option RiskFlag :=
  match indicator.value? with
  | none => none
  | some v =>
    if (8 : ℚ) / 10 ≤ v then
      some ⟨"cbbi_high", v, 8 / 10, "High CBBI",
            "CBBI value of " ++ fmt2 v ++ " indicates extreme market euphoria",
            "âš ï¸"⟩
    else none

/-- Embedding of `check_rainbow_risk` (src/scripts/risk_engine.py lines
169-195): missing `value` key → no flag; value ≥ 7 → the `rainbow_top`
flag; otherwise no flag. -/
def check_rainbow_risk (indicator : Indicator) : Option RiskFlag :=
  match indicator.value? with
  | none => none
  | some v =>
    if (7 : ℚ) ≤ v then
      some ⟨"rainbow_top", v, 7, "Top Rainbow Band",
            "BTC price is in band " ++ fmtPlain v ++ " of the Rainbow Chart, indicating potential top",
            "ðŸŒˆ"⟩
    else none

/-- Embedding of `check_pi_cycle_risk` (src/scripts/risk_engine.py lines
198-224): missing `value` key → no flag; value ≥ 0.95 → the `pi_cycle_top`
flag; otherwise no flag. -/
def check_pi_cycle_risk (indicator : Indicator) : Option RiskFlag :=
  match indicator.value? with
  | none => none
  | some v =>
    if (95 : ℚ) / 100 ≤ v then
      some ⟨"pi_cycle_top", v, 95 / 100, "Pi-Cycle Near Top",
            "Pi-Cycle value of " ++ fmt2 v ++ " indicates potential market top",
            "Ï€"⟩
    else none

/-- One entry of the `agent_votes` list inside a consensus record.  The risk
engine carries this list through untouched, so its fields are opaque data
here. -/
structure AgentVote where
  name : String
  score : ℚ
  action : String
  confidence : ℚ
  rationale : String
  deriving DecidableEq

/-- Consensus record (the JSON dict produced by aggregate_votes.py and
updated by risk_engine.py).  `action`, and the keys that only the risk
engine writes (`risk_flags`, `original_action`, `risk_override`), are
optional because the engine reads/writes them through `.get` /
key-assignment on a dict that may lack them. -/
structure Consensus where
  date : String
  timestamp : String
  score : ℚ
  action? : Option String
  emoji : String
  agent_votes : List AgentVote
  distribution : DistResult
  risk_flags? : Option (List RiskFlag)
  original_action? : Option String
  risk_override? : Option Bool
  deriving DecidableEq

/-- The `risk_flags` list accumulated by `apply_risk_overrides`
(src/scripts/risk_engine.py lines 238-263): the three checks run in the
fixed order CBBI, Rainbow Bands, Pi Cycle, each only when its exact display
name is a key of the indicators dict, and each appends at most one flag. -/
def computed_risk_flags (indicators : List (String × Indicator)) : List RiskFlag :=
  ((alookup indicators "Cbbi").bind check_cbbi_risk).toList
    ++ ((alookup indicators "Rainbow Bands").bind check_rainbow_risk).toList
    ++ ((alookup indicators "Pi Cycle").bind check_pi_cycle_risk).toList

/-- Emoji looked up for the forced `de-risk` action
(src/scripts/risk_engine.py lines 274-281): the first table row whose
`action` equals `de-risk`, its `emoji` value, with the literal fallback
emoji used when no row or no `emoji` key is found. -/
def derisk_emoji (cfg : List ActionBand) : String :=
  (((cfg.find? fun b => b.action? == some "de-risk").bind fun b => b.emoji?).getD
    "ðŸ”´")

/-- Embedding of `apply_risk_overrides` (src/scripts/risk_engine.py lines
227-288), parametrised by the `consensus_to_action` table that the Python
code loads from `action_map.yaml` inside the override branch.  `forced_action`
is set to `de-risk` exactly when some flag fired, so the Python guard
`if forced_action and risk_flags` is equivalent to the flag list being
non-empty. -/
def apply_risk_overrides (cfg : List ActionBand) (consensus : Consensus)
    (indicators : List (String × Indicator)) : Consensus :=
  let flags := computed_risk_flags indicators
  if flags.isEmpty then
    ⟨consensus.date, consensus.timestamp, consensus.score, consensus.action?,
     consensus.emoji, consensus.agent_votes, consensus.distribution,
     some flags, consensus.original_action?, some false⟩
  else
    ⟨consensus.date, consensus.timestamp, consensus.score, some "de-risk",
     derisk_emoji cfg, consensus.agent_votes, consensus.distribution,
     some flags, some (consensus.action?.getD "hold"), some true⟩

/-! ### Derived vocabulary used in theorem statements -/

/-- Count looked up for an action in a distribution dict, 0 when absent. -/
def lookupCount (l : List (String × Nat)) (a : String) : Nat :=
  (alookup l a).getD 0

/-- Number of votes whose literal action string (with the `HOLD` default)
equals `a`. -/
def countVotes (outs : List Vote) (a : String) : Nat :=
  (outs.filter fun v => voteAction v == a).length

/-! ### Concrete sample records used by witnesses and counterexamples -/

/-- Sample `agent_votes` payload carried through the risk engine. -/
def sampleVotes : List AgentVote :=
  [⟨"TrendAgent", 70, "BUY", 1 / 2, "sample rationale"⟩]

/-- Sample consensus with action `buy`, as in the specification's risk
override scenario. -/
def cBuy : Consensus :=
  ⟨"2025-01-01", "2025-01-01T00:00:00", 70, some "buy", "游릭", sampleVotes,
   ⟨[("BUY", 1)], 1, some "BUY"⟩, none, none, none⟩

/-- Indicator set with the CBBI at 0.85 (above the 0.8 threshold), as in the
specification's risk override scenario. -/
def indsCbbiHigh : List (String × Indicator) :=
  [("Cbbi", ⟨some (85 / 100), none⟩)]

/-- Sample bullish indicator record. -/
def indBull : Indicator := ⟨none, some "bullish"⟩

/-- Three voters with actions BUY, BUY, HOLD (the specification's agreement
example). -/
def votesBBH : List Vote :=
  [⟨some 80, some "BUY"⟩, ⟨some 70, some "BUY"⟩, ⟨some 50, some "HOLD"⟩]

/-! ### Helper lemmas -/

/-- A successful association-list lookup returns a pair of the list. -/
theorem alookup_mem {α : Type} {l : List (String × α)} {k : String} {v : α}
    (h : alookup l k = some v) : (k, v) ∈ l := by
  induction l with
  | nil => simp [alookup] at h
  | cons p rest ih =>
    obtain ⟨k', v'⟩ := p
    by_cases hk : k' = k
    · subst hk
      simp [alookup] at h
      simp [h]
    · simp [alookup, hk] at h
      exact List.mem_cons_of_mem _ (ih h)

/-- The length of a `filterMap` is the number of elements on which the
function succeeds. -/
theorem length_filterMap_isSome {α β : Type} (f : α → Option β) (l : List α) :
    (l.filterMap f).length = (l.filter fun a => (f a).isSome).length := by
  induction l with
  | nil => rfl
  | cons x xs ih =>
    cases hfx : f x <;> simp [List.filterMap_cons, List.filter_cons, hfx, ih]

/-! ### Claim theorems -/

/-- C7: determine_action returns STRONG_BUY when score ≥ 75, BUY when
60 ≤ score < 75, STRONG_SELL when score ≤ 25, SELL when 25 < score ≤ 40,
and HOLD otherwise; in particular 25 ↦ STRONG_SELL, 40 ↦ SELL,
100 ↦ STRONG_BUY (pinned in the witness). -/
theorem determine_action_bands (s : ℚ) :
    (75 ≤ s → determine_action s = "STRONG_BUY")
    ∧ (60 ≤ s → s < 75 → determine_action s = "BUY")
    ∧ (s ≤ 25 → determine_action s = "STRONG_SELL")
    ∧ (25 < s → s ≤ 40 → determine_action s = "SELL")
    ∧ (40 < s → s < 60 → determine_action s = "HOLD") := by
  unfold determine_action
  refine ⟨?_, ?_, ?_, ?_, ?_⟩ <;> intros <;> split_ifs <;> first | rfl | linarith

/-- C7 witness: the banding theorem applied at the pinned scores 25, 40 and
100 from the specification. -/
theorem determine_action_bands_pins :
    determine_action 25 = "STRONG_SELL"
    ∧ determine_action 40 = "SELL"
    ∧ determine_action 100 = "STRONG_BUY" :=
  ⟨(determine_action_bands 25).2.2.1 (by norm_num),
   (determine_action_bands 40).2.2.2.1 (by norm_num) (by norm_num),
   (determine_action_bands 100).1 (by norm_num)⟩

/-- C3 counterexample: the consensus-score calculation does not fail on an
empty vote collection; it resolves to the neutral default 50.0
(src/scripts/aggregate_votes.py line 118), contradicting the claimed hard
error. -/
theorem calculate_consensus_pct_empty_is_neutral :
    calculate_consensus_pct [] = 50 := by
  simp [calculate_consensus_pct]

/-- C3 amended: on an empty collection of votes, `calculate_consensus_pct`
returns the neutral default 50.0 (after logging a warning) instead of
failing. -/
theorem calculate_consensus_pct_empty_default (outs : List Vote)
    (h : outs = []) : calculate_consensus_pct outs = 50 := by
  subst h
  simp [calculate_consensus_pct]

/-- C3 witness: the amended theorem applied to the empty vote list. -/
theorem calculate_consensus_pct_empty_default_witness :
    calculate_consensus_pct [] = 50 ∧ ([] : List Vote) = [] :=
  ⟨calculate_consensus_pct_empty_default [] rfl, rfl⟩

/-- C1 evaluation at the failing input: a band carrying both bounds
(min 40, max 60) matches the score 10, which is below its min, because the
first branch of `map_consensus_to_action` tests only `score < max` without
requiring that the band lack a `min`; under the claimed half-open rule no
band would match and the default `hold` would be returned. -/
theorem map_consensus_band_matches_below_min :
    map_consensus_to_action 10 [⟨some 40, some 60, some "buy", some "游릭"⟩]
      = ("buy", "游릭")
    ∧ (10 : ℚ) < 40 := by
  constructor
  · rfl
  · norm_num

/-- C6: the composite score is the weight-normalised mean of the weighted
scores clamped to [0, 100]; an empty mapping yields exactly 50.0, and a
zero total weight yields exactly 50.0 (division is never performed on a
zero weight sum). -/
theorem calculate_composite_score_spec (ws : List (String × WeightedSignal)) :
    (ws = [] → calculate_composite_score ws = 50)
    ∧ (total_weight ws = 0 → calculate_composite_score ws = 50)
    ∧ (ws ≠ [] → total_weight ws ≠ 0 →
        calculate_composite_score ws
          = max 0 (min 100 (weighted_sum ws / total_weight ws)))
    ∧ 0 ≤ calculate_composite_score ws ∧ calculate_composite_score ws ≤ 100 := by
  refine ⟨?_, ?_, ?_, ?_, ?_⟩
  · intro h
    simp [calculate_composite_score, h]
  · intro h
    unfold calculate_composite_score
    split_ifs <;> simp_all
  · intro h1 h2
    simp [calculate_composite_score, h1, h2]
  · unfold calculate_composite_score
    split_ifs <;> norm_num
  · unfold calculate_composite_score
    split_ifs <;> norm_num

/-- C6 witness: the specification's worked examples — the empty mapping
gives 50.0, and two unit-weight signals with weighted scores 40 and 60 give
(40 + 60) / 2 = 50.0. -/
theorem calculate_composite_score_spec_witness :
    calculate_composite_score [] = 50
    ∧ calculate_composite_score
        [("A", ⟨0, "n", 0, 1, 40⟩), ("B", ⟨0, "n", 0, 1, 60⟩)] = 50 := by
  constructor
  · exact (calculate_composite_score_spec []).1 rfl
  · have h := (calculate_composite_score_spec
        [("A", ⟨0, "n", 0, 1, 40⟩), ("B", ⟨0, "n", 0, 1, 60⟩)]).2.2.1
        (by simp) (by norm_num [total_weight])
    rw [h]
    norm_num [weighted_sum, total_weight]

/-- A record without a `value` key produces no CBBI flag. -/
theorem check_cbbi_risk_no_value {i : Indicator} (h : i.value? = none) :
    check_cbbi_risk i = none := by
  simp [check_cbbi_risk, h]

/-- A record without a `value` key produces no Rainbow flag. -/
theorem check_rainbow_risk_no_value {i : Indicator} (h : i.value? = none) :
    check_rainbow_risk i = none := by
  simp [check_rainbow_risk, h]

/-- A record without a `value` key produces no Pi-Cycle flag. -/
theorem check_pi_cycle_risk_no_value {i : Indicator} (h : i.value? = none) :
    check_pi_cycle_risk i = none := by
  simp [check_pi_cycle_risk, h]

/-- When every indicator record lacks a `value` key, no risk flag is
accumulated. -/
theorem computed_risk_flags_no_values {inds : List (String × Indicator)}
    (h : ∀ p ∈ inds, (p : String × Indicator).2.value? = none) :
    computed_risk_flags inds = [] := by
  have h1 : (alookup inds "Cbbi").bind check_cbbi_risk = none := by
    cases hc : alookup inds "Cbbi" with
    | none => rfl
    | some i => simpa using check_cbbi_risk_no_value (h _ (alookup_mem hc))
  have h2 : (alookup inds "Rainbow Bands").bind check_rainbow_risk = none := by
    cases hr : alookup inds "Rainbow Bands" with
    | none => rfl
    | some i => simpa using check_rainbow_risk_no_value (h _ (alookup_mem hr))
  have h3 : (alookup inds "Pi Cycle").bind check_pi_cycle_risk = none := by
    cases hp : alookup inds "Pi Cycle" with
    | none => rfl
    | some i => simpa using check_pi_cycle_risk_no_value (h _ (alookup_mem hp))
  simp [computed_risk_flags, h1, h2, h3]

/-- C10: each of the three risk checks is total on indicator records lacking
a `value` key and returns no flag there, so indicators with missing values
can never trigger a risk override. -/
theorem risk_checks_missing_value_total :
    (∀ i : Indicator, i.value? = none →
        check_cbbi_risk i = none ∧ check_rainbow_risk i = none
          ∧ check_pi_cycle_risk i = none)
    ∧ (∀ (cfg : List ActionBand) (c : Consensus) (inds : List (String × Indicator)),
        (∀ p ∈ inds, (p : String × Indicator).2.value? = none) →
          (apply_risk_overrides cfg c inds).risk_override? = some false
          ∧ (apply_risk_overrides cfg c inds).action? = c.action?) := by
  constructor
  · intro i h
    exact ⟨check_cbbi_risk_no_value h, check_rainbow_risk_no_value h,
      check_pi_cycle_risk_no_value h⟩
  · intro cfg c inds h
    have hflags := computed_risk_flags_no_values h
    simp [apply_risk_overrides, hflags]

/-- C10 witness: the totality theorem applied to a concrete indicator record
with no `value` key, and to a consensus with one such indicator. -/
theorem risk_checks_missing_value_total_witness :
    check_cbbi_risk ⟨none, some "bullish"⟩ = none
    ∧ (apply_risk_overrides defaultActionTable cBuy
        [("Cbbi", ⟨none, some "bullish"⟩)]).risk_override? = some false := by
  constructor
  · exact (risk_checks_missing_value_total.1 ⟨none, some "bullish"⟩ rfl).1
  · exact (risk_checks_missing_value_total.2 defaultActionTable cBuy
      [("Cbbi", ⟨none, some "bullish"⟩)] (by simp)).1

/-- C9 counterexample: with no declared weights and one available indicator,
`weight_signals` stores the synthesized equal weights into the voter's
weights (src/agents/base_agent.py line 62); afterwards the stored mapping is
no longer the empty mapping the voter declared. -/
theorem weight_signals_mutates_weights :
    (weight_signals [] [("A", indBull)]).1 ≠ ([] : List (String × ℚ)) := by
  simp [weight_signals, indBull]

/-- C9 amended: with no declared weights and at least one available
indicator, `weight_signals` synthesizes equal weights 1/count(indicators)
over every available indicator, computes exactly as an explicit call with
those declared weights would, and stores the synthesized mapping back into
the voter's weights (the stored mapping after the call is the synthesized
one, not the original empty one). -/
theorem weight_signals_fallback_spec (inds : List (String × Indicator))
    (h : inds ≠ []) :
    (weight_signals [] inds).1
      = inds.map (fun p => (p.1, (1 : ℚ) / inds.length))
    ∧ (weight_signals [] inds).2
      = (weight_signals (inds.map fun p => (p.1, (1 : ℚ) / inds.length)) inds).2 := by
  have hm : inds.map (fun p => (p.1, (1 : ℚ) / inds.length)) ≠ [] := by
    simpa using h
  constructor
  · simp [weight_signals, h]
  · simp [weight_signals, h, hm]

/-- C9 witness: the fallback theorem applied to one available indicator;
the stored weights after the call are the synthesized equal weights. -/
theorem weight_signals_fallback_spec_witness :
    (weight_signals [] [("A", indBull)]).1 = [("A", 1)] := by
  have h := (weight_signals_fallback_spec [("A", indBull)] (by simp)).1
  rw [h]
  norm_num

/-- C8 counterexample: with an empty declared-weight mapping and one
available indicator, `weight_signals` emits one weighted signal even though
zero declared weights name an available indicator, so the output is not one
entry per declared weight. -/
theorem weight_signals_empty_weights_emits :
    ((weight_signals [] [("A", indBull)]).2).length = 1
    ∧ ([] : List (String × ℚ)).length = 0 := by
  constructor
  · simp [weight_signals, indBull, mkWeightedSignal, alookup]
  · rfl

/-- C8 amended: provided the voter declares at least one weight (so the
equal-weight fallback does not replace the mapping), `weight_signals` emits
exactly one weighted signal per declared weight whose indicator name exists
in the available set, silently skipping weights that name an absent
indicator; every emitted entry carries base_score 75 for a `bullish`
signal, 25 for `bearish`, 50 for anything else, and weighted_score =
base_score × declared weight. -/
theorem weight_signals_declared_spec (weights : List (String × ℚ))
    (inds : List (String × Indicator)) (h : weights ≠ []) :
    ((weight_signals weights inds).2).length
      = (weights.filter fun p => (alookup inds p.1).isSome).length
    ∧ (∀ q ∈ weights, ∀ i, alookup inds (q : String × ℚ).1 = some i →
        (q.1, mkWeightedSignal i q.2) ∈ (weight_signals weights inds).2)
    ∧ (∀ n ws, (n, ws) ∈ (weight_signals weights inds).2 →
        ∃ w i, (n, w) ∈ weights ∧ alookup inds n = some i
          ∧ ws.weight = w
          ∧ ws.base_score = (if i.signal?.getD "neutral" = "bullish" then 75
              else if i.signal?.getD "neutral" = "bearish" then 25 else 50)
          ∧ ws.weighted_score = ws.base_score * w) := by
  have hout : (weight_signals weights inds).2
      = weights.filterMap
          (fun p => (alookup inds p.1).map fun ind => (p.1, mkWeightedSignal ind p.2)) := by
    simp [weight_signals, h]
  refine ⟨?_, ?_, ?_⟩
  · rw [hout, length_filterMap_isSome]
    congr 1
    apply List.filter_congr
    intro p _
    cases alookup inds p.1 <;> simp
  · intro q hq i hi
    rw [hout]
    exact List.mem_filterMap.mpr ⟨q, hq, by rw [hi]; rfl⟩
  · intro n ws hmem
    rw [hout] at hmem
    obtain ⟨p, hp, hfp⟩ := List.mem_filterMap.mp hmem
    cases hl : alookup inds p.1 with
    | none => rw [hl] at hfp; simp at hfp
    | some i =>
      rw [hl] at hfp
      simp only [Option.map_some'] at hfp
      have hfp' : (p.1, mkWeightedSignal i p.2) = (n, ws) := Option.some.inj hfp
      have hn : p.1 = n := congrArg Prod.fst hfp'
      have hws : mkWeightedSignal i p.2 = ws := congrArg Prod.snd hfp'
      refine ⟨p.2, i, ?_, ?_, ?_, ?_, ?_⟩
      · rw [← hn]; simpa using hp
      · rw [← hn]; exact hl
      · rw [← hws]; rfl
      · rw [← hws]; rfl
      · rw [← hws]; rfl

/-- C8 witness: the declared-weights theorem applied to two declared weights
of which only one names an available (bullish) indicator: exactly one
signal is emitted. -/
theorem weight_signals_declared_spec_witness :
    ((weight_signals [("A", 2), ("B", 3)] [("A", indBull)]).2).length = 1 := by
  have h := (weight_signals_declared_spec [("A", 2), ("B", 3)] [("A", indBull)]
    (by simp)).1
  rw [h]
  simp [alookup]

/-- A CBBI reading of 0.85 fires the flag list. -/
theorem computed_risk_flags_cbbiHigh_ne_nil :
    computed_risk_flags indsCbbiHigh ≠ [] := by
  have h : alookup indsCbbiHigh "Cbbi" = some ⟨some (85 / 100), none⟩ := rfl
  simp only [computed_risk_flags, h, Option.some_bind]
  simp only [check_cbbi_risk]
  rw [if_pos (by norm_num)]
  simp

/-- C4: apply_risk_overrides collects one flag per hard check that fires
(CBBI ≥ 0.8, Rainbow Bands ≥ 7, Pi-Cycle ≥ 0.95, each independent); with a
non-empty flag list it records the previous action under original_action,
overwrites the action with de-risk and sets risk_override, with no flag it
sets risk_override to false and leaves the rest unchanged, and in every
case agent_votes and distribution are untouched. -/
theorem apply_risk_overrides_spec (cfg : List ActionBand) (c : Consensus)
    (inds : List (String × Indicator)) :
    ((apply_risk_overrides cfg c inds).risk_flags?
        = some (computed_risk_flags inds))
    ∧ (∀ i : Indicator,
        ((check_cbbi_risk i).isSome ↔ ∃ v, i.value? = some v ∧ (8 : ℚ) / 10 ≤ v)
        ∧ ((check_rainbow_risk i).isSome ↔ ∃ v, i.value? = some v ∧ (7 : ℚ) ≤ v)
        ∧ ((check_pi_cycle_risk i).isSome ↔ ∃ v, i.value? = some v ∧ (95 : ℚ) / 100 ≤ v)
        ∧ (∀ f, check_cbbi_risk i = some f → f.flag = "cbbi_high")
        ∧ (∀ f, check_rainbow_risk i = some f → f.flag = "rainbow_top")
        ∧ (∀ f, check_pi_cycle_risk i = some f → f.flag = "pi_cycle_top"))
    ∧ (computed_risk_flags inds ≠ [] →
        (apply_risk_overrides cfg c inds).action? = some "de-risk"
        ∧ (apply_risk_overrides cfg c inds).original_action?
            = some (c.action?.getD "hold")
        ∧ (apply_risk_overrides cfg c inds).risk_override? = some true)
    ∧ (computed_risk_flags inds = [] →
        (apply_risk_overrides cfg c inds).risk_override? = some false
        ∧ (apply_risk_overrides cfg c inds).action? = c.action?
        ∧ (apply_risk_overrides cfg c inds).emoji = c.emoji
        ∧ (apply_risk_overrides cfg c inds).original_action? = c.original_action?)
    ∧ (apply_risk_overrides cfg c inds).agent_votes = c.agent_votes
    ∧ (apply_risk_overrides cfg c inds).distribution = c.distribution
    ∧ (apply_risk_overrides cfg c inds).score = c.score
    ∧ (apply_risk_overrides cfg c inds).date = c.date
    ∧ (apply_risk_overrides cfg c inds).timestamp = c.timestamp := by
  refine ⟨?_, ?_, ?_, ?_, ?_, ?_, ?_, ?_, ?_⟩
  case refine_2 =>
    intro i
    refine ⟨?_, ?_, ?_, ?_, ?_, ?_⟩ <;>
      · cases hv : i.value? with
        | none => simp [check_cbbi_risk, check_rainbow_risk, check_pi_cycle_risk, hv]
        | some v =>
          simp only [check_cbbi_risk, check_rainbow_risk, check_pi_cycle_risk, hv]
          split_ifs with hle <;> simp [hle]
  all_goals
    cases hflags : computed_risk_flags inds with
    | nil => simp [apply_risk_overrides, hflags]
    | cons f fs => simp [apply_risk_overrides, hflags]

/-- C4 witness: the specification's risk-override scenario — consensus
action buy and CBBI 0.85 yield action de-risk, original_action buy and
risk_override true; an empty indicator set yields risk_override false. -/
theorem apply_risk_overrides_spec_witness :
    (apply_risk_overrides defaultActionTable cBuy indsCbbiHigh).action?
        = some "de-risk"
    ∧ (apply_risk_overrides defaultActionTable cBuy indsCbbiHigh).original_action?
        = some "buy"
    ∧ (apply_risk_overrides defaultActionTable cBuy indsCbbiHigh).risk_override?
        = some true
    ∧ (apply_risk_overrides defaultActionTable cBuy []).risk_override?
        = some false := by
  have h := (apply_risk_overrides_spec defaultActionTable cBuy indsCbbiHigh).2.2.1
    computed_risk_flags_cbbiHigh_ne_nil
  have h0 := (apply_risk_overrides_spec defaultActionTable cBuy []).2.2.2.1 rfl
  exact ⟨h.1, by rw [h.2.1]; rfl, h.2.2, h0.1⟩

/-- C2 counterexample: the risk-override pass is not idempotent — starting
from a buy consensus and a CBBI reading of 0.85, the second application
overwrites original_action (buy) with the already-overridden action
(de-risk), so the two outputs differ. -/
theorem apply_risk_overrides_not_idempotent :
    apply_risk_overrides defaultActionTable
        (apply_risk_overrides defaultActionTable cBuy indsCbbiHigh) indsCbbiHigh
      ≠ apply_risk_overrides defaultActionTable cBuy indsCbbiHigh := by
  intro heq
  have hne := computed_risk_flags_cbbiHigh_ne_nil
  cases hflags : computed_risk_flags indsCbbiHigh with
  | nil => exact hne hflags
  | cons f fs =>
    have h1 : (apply_risk_overrides defaultActionTable
        (apply_risk_overrides defaultActionTable cBuy indsCbbiHigh)
        indsCbbiHigh).original_action? = some "de-risk" := by
      simp [apply_risk_overrides, hflags]
    have h2 : (apply_risk_overrides defaultActionTable cBuy
        indsCbbiHigh).original_action? = some "buy" := by
      simp [apply_risk_overrides, hflags, cBuy]
    rw [heq, h2] at h1
    simp at h1

/-- C2 amended: a second application of apply_risk_overrides with the same
indicators and table reproduces the first output's action, emoji,
risk_flags, risk_override and every carried field (no double-flagging, no
further action change); when no flag fires the outputs are fully identical,
but when a flag fires the second pass overwrites original_action with the
already-overridden action de-risk. -/
theorem apply_risk_overrides_second_pass (cfg : List ActionBand)
    (c : Consensus) (inds : List (String × Indicator)) :
    (apply_risk_overrides cfg (apply_risk_overrides cfg c inds) inds).action?
        = (apply_risk_overrides cfg c inds).action?
    ∧ (apply_risk_overrides cfg (apply_risk_overrides cfg c inds) inds).emoji
        = (apply_risk_overrides cfg c inds).emoji
    ∧ (apply_risk_overrides cfg (apply_risk_overrides cfg c inds) inds).risk_flags?
        = (apply_risk_overrides cfg c inds).risk_flags?
    ∧ (apply_risk_overrides cfg (apply_risk_overrides cfg c inds) inds).risk_override?
        = (apply_risk_overrides cfg c inds).risk_override?
    ∧ (apply_risk_overrides cfg (apply_risk_overrides cfg c inds) inds).agent_votes
        = (apply_risk_overrides cfg c inds).agent_votes
    ∧ (apply_risk_overrides cfg (apply_risk_overrides cfg c inds) inds).distribution
        = (apply_risk_overrides cfg c inds).distribution
    ∧ (apply_risk_overrides cfg (apply_risk_overrides cfg c inds) inds).score
        = (apply_risk_overrides cfg c inds).score
    ∧ (computed_risk_flags inds = [] →
        apply_risk_overrides cfg (apply_risk_overrides cfg c inds) inds
          = apply_risk_overrides cfg c inds)
    ∧ (computed_risk_flags inds ≠ [] →
        (apply_risk_overrides cfg (apply_risk_overrides cfg c inds) inds).original_action?
          = some "de-risk") := by
  cases hflags : computed_risk_flags inds with
  | nil => simp [apply_risk_overrides, hflags]
  | cons f fs => simp [apply_risk_overrides, hflags]

/-- C2 witness: with no indicators (hence no flags) the second application
reproduces the first exactly. -/
theorem apply_risk_overrides_second_pass_witness :
    apply_risk_overrides defaultActionTable
        (apply_risk_overrides defaultActionTable cBuy []) []
      = apply_risk_overrides defaultActionTable cBuy [] :=
  (apply_risk_overrides_second_pass defaultActionTable cBuy
    []).2.2.2.2.2.2.2.1 rfl

/-- Bumping a key's counter increments exactly that key's looked-up count. -/
theorem lookupCount_bumpCount (l : List (String × Nat)) (b a : String) :
    lookupCount (bumpCount l b) a
      = lookupCount l a + if b = a then 1 else 0 := by
  induction l with
  | nil => by_cases hba : b = a <;> simp [bumpCount, lookupCount, alookup, hba]
  | cons p rest ih =>
    obtain ⟨k, n⟩ := p
    by_cases hkb : k = b
    · subst hkb
      by_cases hka : k = a <;> simp [bumpCount, lookupCount, alookup, hka]
    · by_cases hka : k = a
      · have hba : ¬ b = a := fun h => hkb (hka.trans h.symm)
        have hab : ¬ a = b := fun h => hba h.symm
        simp [bumpCount, lookupCount, alookup, hkb, hka, hba, hab]
      · simp only [bumpCount, lookupCount, alookup, if_neg hkb, if_neg hka]
        exact ih

/-- The counting fold adds, for each key, the number of votes carrying it. -/
theorem lookupCount_foldl_bump (outs : List Vote) (acc : List (String × Nat))
    (a : String) :
    lookupCount (outs.foldl (fun acc v => bumpCount acc (voteAction v)) acc) a
      = lookupCount acc a + countVotes outs a := by
  induction outs generalizing acc with
  | nil => simp [countVotes]
  | cons v vs ih =>
    simp only [List.foldl_cons]
    rw [ih, lookupCount_bumpCount]
    by_cases hva : voteAction v = a <;>
      simp [countVotes, List.filter_cons, hva]
    omega

/-- The distribution dict built by the counting loop maps every action
string to the number of votes carrying it. -/
theorem lookupCount_countActions (outs : List Vote) (a : String) :
    lookupCount (countActions outs) a = countVotes outs a := by
  have h := lookupCount_foldl_bump outs [] a
  simpa [countActions, lookupCount, alookup] using h

/-- Keys after a bump are the old keys plus possibly the bumped key. -/
theorem mem_keys_bumpCount (l : List (String × Nat)) (b a : String) :
    a ∈ (bumpCount l b).map Prod.fst ↔ a ∈ l.map Prod.fst ∨ a = b := by
  induction l with
  | nil => simp [bumpCount]
  | cons p rest ih =>
    obtain ⟨k, n⟩ := p
    by_cases hkb : k = b
    · subst hkb
      simp [bumpCount]
      tauto
    · simp [bumpCount, hkb, ih]
      tauto

/-- Bumping preserves distinctness of the dict keys. -/
theorem nodup_keys_bumpCount {l : List (String × Nat)} (b : String)
    (h : (l.map Prod.fst).Nodup) :
    ((bumpCount l b).map Prod.fst).Nodup := by
  induction l with
  | nil => simp [bumpCount]
  | cons p rest ih =>
    obtain ⟨k, n⟩ := p
    simp only [List.map_cons, List.nodup_cons] at h
    by_cases hkb : k = b
    · subst hkb
      simpa [bumpCount] using h
    · simp only [bumpCount, if_neg hkb, List.map_cons, List.nodup_cons]
      refine ⟨?_, ih h.2⟩
      rw [mem_keys_bumpCount]
      push_neg
      exact ⟨h.1, hkb⟩

/-- The counting fold keeps dict keys distinct. -/
theorem nodup_keys_foldl_bump (outs : List Vote) (acc : List (String × Nat))
    (h : (acc.map Prod.fst).Nodup) :
    (((outs.foldl (fun acc v => bumpCount acc (voteAction v)) acc)).map
        Prod.fst).Nodup := by
  induction outs generalizing acc with
  | nil => exact h
  | cons v vs ih => exact ih _ (nodup_keys_bumpCount _ h)

/-- The distribution dict has distinct keys. -/
theorem nodup_keys_countActions (outs : List Vote) :
    ((countActions outs).map Prod.fst).Nodup :=
  nodup_keys_foldl_bump outs [] (by simp)

/-- On a dict with distinct keys, membership determines the lookup. -/
theorem alookup_of_mem_nodup {α : Type} {l : List (String × α)} {k : String}
    {v : α} (hnd : (l.map Prod.fst).Nodup) (hmem : (k, v) ∈ l) :
    alookup l k = some v := by
  induction l with
  | nil => simp at hmem
  | cons p rest ih =>
    obtain ⟨k', v'⟩ := p
    simp only [List.map_cons, List.nodup_cons] at hnd
    rcases List.mem_cons.mp hmem with heq | hmem'
    · obtain ⟨hk, hv⟩ := Prod.mk.injEq .. ▸ heq
      simp [alookup, hk.symm, hv]
    · have hk' : k' ≠ k := by
        intro h
        subst h
        exact hnd.1 (List.mem_map.mpr ⟨(k', v), hmem', rfl⟩)
      simp only [alookup, if_neg hk']
      exact ih hnd.2 hmem'

/-- The linear max-scan returns an element of the list. -/
theorem foldl_maxpair_mem (xs : List (String × Nat)) (x : String × Nat) :
    xs.foldl (fun best y => if best.2 < y.2 then y else best) x ∈ x :: xs := by
  induction xs generalizing x with
  | nil => simp
  | cons y ys ih =>
    simp only [List.foldl_cons]
    have h := ih (if x.2 < y.2 then y else x)
    rcases List.mem_cons.mp h with h' | h'
    · rw [h']
      split_ifs
      · exact List.mem_cons_of_mem _ (List.mem_cons_self _ _)
      · exact List.mem_cons_self _ _
    · exact List.mem_cons_of_mem _ (List.mem_cons_of_mem _ h')

/-- The linear max-scan's count bounds every element's count. -/
theorem foldl_maxpair_le (xs : List (String × Nat)) (x : String × Nat) :
    ∀ z ∈ x :: xs,
      (z : String × Nat).2
        ≤ (xs.foldl (fun best y => if best.2 < y.2 then y else best) x).2 := by
  induction xs generalizing x with
  | nil =>
    intro z hz
    rcases List.mem_cons.mp hz with h | h
    · subst h; simp
    · simp at h
  | cons y ys ih =>
    intro z hz
    simp only [List.foldl_cons]
    rcases List.mem_cons.mp hz with h | h
    · subst h
      refine le_trans ?_ (ih _ _ (List.mem_cons_self _ _))
      split_ifs with hlt <;> omega
    · rcases List.mem_cons.mp h with h' | h'
      · subst h'
        refine le_trans ?_ (ih _ _ (List.mem_cons_self _ _))
        split_ifs with hlt <;> omega
      · exact ih _ _ (List.mem_cons_of_mem _ h')

/-- Python `max(values)` agrees with the count of the item returned by
`max(items, key=...)`. -/
theorem maxCountVal_eq_foldl (xs : List (String × Nat)) (x : String × Nat) :
    maxCountVal (x :: xs)
      = (xs.foldl (fun best y => if best.2 < y.2 then y else best) x).2 := by
  induction xs generalizing x with
  | nil => rfl
  | cons y ys ih =>
    have hstep : (if x.2 < y.2 then y else x).2 = Nat.max x.2 y.2 := by
      split_ifs with hlt
      · exact (Nat.max_eq_right (Nat.le_of_lt hlt)).symm
      · exact (Nat.max_eq_left (Nat.le_of_not_lt hlt)).symm
    have h1 : maxCountVal (x :: y :: ys)
        = maxCountVal ((if x.2 < y.2 then y else x) :: ys) := by
      simp only [maxCountVal, List.foldl_cons, hstep]
    rw [h1, ih]
    simp [List.foldl_cons]

/-- Bumping never returns an empty dict. -/
theorem bumpCount_ne_nil (l : List (String × Nat)) (b : String) :
    bumpCount l b ≠ [] := by
  cases l with
  | nil => simp [bumpCount]
  | cons p rest =>
    obtain ⟨k, n⟩ := p
    simp only [bumpCount]
    split_ifs <;> simp

/-- The counting fold never empties a non-empty accumulator. -/
theorem foldl_bump_ne_nil (outs : List Vote) (acc : List (String × Nat))
    (h : acc ≠ []) :
    outs.foldl (fun acc v => bumpCount acc (voteAction v)) acc ≠ [] := by
  induction outs generalizing acc with
  | nil => exact h
  | cons v vs ih => exact ih _ (bumpCount_ne_nil _ _)

/-- A non-empty vote list yields a non-empty distribution dict. -/
theorem countActions_ne_nil {outs : List Vote} (h : outs ≠ []) :
    countActions outs ≠ [] := by
  cases outs with
  | nil => exact absurd rfl h
  | cons v vs =>
    simp only [countActions, List.foldl_cons]
    exact foldl_bump_ne_nil vs _ (bumpCount_ne_nil _ _)

/-- C5 counterexample: with a single voter whose action is BUY, the
distribution analysis returns an empty distribution (not {BUY: 1}) and
carries no majority_action at all, although that one vote's BUY count is 1. -/
theorem analyze_agent_distribution_single_voter :
    (analyze_agent_distribution [⟨some 70, some "BUY"⟩]).distribution = []
    ∧ (analyze_agent_distribution [⟨some 70, some "BUY"⟩]).majority_action? = none
    ∧ countVotes [⟨some 70, some "BUY"⟩] "BUY" = 1 := by
  refine ⟨rfl, rfl, by decide⟩

/-- C5 amended: with at least two voters the distribution maps each literal
voter action string (defaulting to HOLD) to its count, majority_action is
an action attaining the highest count, and agreement_level is that count
divided by the number of voters; with at most one voter the code instead
returns an empty distribution, agreement_level 1.0, and no majority_action
key. -/
theorem analyze_agent_distribution_spec (outs : List Vote)
    (h2 : 2 ≤ outs.length) :
    (∀ a, lookupCount (analyze_agent_distribution outs).distribution a
        = countVotes outs a)
    ∧ ∃ m n, (analyze_agent_distribution outs).majority_action? = some m
        ∧ (m, n) ∈ (analyze_agent_distribution outs).distribution
        ∧ n = countVotes outs m
        ∧ (∀ a, countVotes outs a ≤ n)
        ∧ (analyze_agent_distribution outs).agreement_level
            = (n : ℚ) / outs.length := by
  have hlen : ¬ outs.length ≤ 1 := by omega
  have hne : outs ≠ [] := by
    intro h
    rw [h] at h2
    simp at h2
  have hdist : (analyze_agent_distribution outs).distribution
      = countActions outs := by
    simp [analyze_agent_distribution, hlen]
  cases hc : countActions outs with
  | nil => exact absurd hc (countActions_ne_nil hne)
  | cons x xs =>
    refine ⟨fun a => by rw [hdist]; exact lookupCount_countActions outs a,
      (xs.foldl (fun best y => if best.2 < y.2 then y else best) x).1,
      (xs.foldl (fun best y => if best.2 < y.2 then y else best) x).2,
      ?_, ?_, ?_, ?_, ?_⟩
    · simp [analyze_agent_distribution, hlen, maxByCount, hc]
    · rw [hdist, hc]
      simpa using foldl_maxpair_mem xs x
    · have hmem : ((xs.foldl (fun best y => if best.2 < y.2 then y else best) x).1,
          (xs.foldl (fun best y => if best.2 < y.2 then y else best) x).2)
          ∈ countActions outs := by
        rw [hc]
        simpa using foldl_maxpair_mem xs x
      have hlk := alookup_of_mem_nodup (nodup_keys_countActions outs) hmem
      have hcnt := lookupCount_countActions outs
        (xs.foldl (fun best y => if best.2 < y.2 then y else best) x).1
      rw [lookupCount, hlk] at hcnt
      simpa using hcnt
    · intro a
      rw [← lookupCount_countActions outs a]
      unfold lookupCount
      cases hla : alookup (countActions outs) a with
      | none => simp
      | some va =>
        have hmema : (a, va) ∈ x :: xs := by
          rw [← hc]
          exact alookup_mem hla
        simpa using foldl_maxpair_le xs x (a, va) hmema
    · have hagree : (analyze_agent_distribution outs).agreement_level
          = ((maxCountVal (countActions outs) : ℚ)) / outs.length := by
        simp only [analyze_agent_distribution, if_neg hlen]
        rw [if_pos (by omega)]
      rw [hagree, hc, maxCountVal_eq_foldl]

/-- C5 witness: the specification's agreement example — voters BUY, BUY,
HOLD give a BUY count of 2, majority BUY, and agreement 2/3. -/
theorem analyze_agent_distribution_spec_witness :
    lookupCount (analyze_agent_distribution votesBBH).distribution "BUY" = 2
    ∧ (analyze_agent_distribution votesBBH).majority_action? = some "BUY"
    ∧ (analyze_agent_distribution votesBBH).agreement_level = 2 / 3 := by
  have h := analyze_agent_distribution_spec votesBBH (by decide)
  have hmaj : (analyze_agent_distribution votesBBH).majority_action?
      = some "BUY" := by decide
  refine ⟨?_, hmaj, ?_⟩
  · rw [h.1 "BUY"]
    decide
  · obtain ⟨m, n, hm, _, hn, _, hag⟩ := h.2
    rw [hmaj] at hm
    have hmB : m = "BUY" := (Option.some.inj hm).symm
    subst hmB
    have hn2 : n = 2 := by
      rw [hn]
      decide
    rw [hag, hn2]
    norm_num [votesBBH]

end Crypto
